import Mathlib

/-!
Verification of the codeshot repository: a shallow embedding of the
parameter validation, truncation, quality selection, frame geometry,
background dispatch, language detection and tool-call control flow,
together with theorems settling the specified behaviour.

Python strings are modelled as `List Char`; machine integers are `Nat`
or `Int` (no overflow is possible at the sizes involved); optional
values are `Option`; nondeterministic random draws are passed in as
explicit arguments constrained to the source's domains.
-/

set_option maxRecDepth 8000

/-- Convert a Lean string literal to the `List Char` model of a Python string. -/
def str (s : String) : List Char := s.toList

/-! ### Python string primitives used by `create_code_image`
  (src/src/core/renderer.py, lines 85-136) -/

/-- Python `code.split('\n')`: split a string at every newline; the result
always has `count '\n' + 1` pieces, none of which contains a newline. -/
def splitNl : List Char → List (List Char)
  | [] => [[]]
  | c :: cs =>
    let r := splitNl cs
    if c = '\n' then [] :: r else (c :: r.headI) :: r.tail

/-- Python `'\n'.join(lines)`. -/
def joinNl : List (List Char) → List Char
  | [] => []
  | [x] => x
  | x :: y :: ys => x ++ '\n' :: joinNl (y :: ys)

/-- Python `code.rfind('\n')`: the highest index of a newline, `none` when
there is no newline (Python returns `-1`, which fails the later `>` test,
exactly as `none` does here). -/
def lastNlIdx (l : List Char) : Option Nat :=
  match l.reverse.findIdx? (fun c => c = '\n') with
  | some i => some (l.length - 1 - i)
  | none => none

theorem splitNl_ne_nil (l : List Char) : splitNl l ≠ [] := by
  cases l with
  | nil => simp [splitNl]
  | cons c cs =>
    simp only [splitNl]
    split <;> simp

theorem splitNl_cons_ne (c : Char) (cs : List Char) (h : ¬ c = '\n') :
    splitNl (c :: cs) = (c :: (splitNl cs).headI) :: (splitNl cs).tail := by
  simp [splitNl, h]

theorem splitNl_cons_nl (cs : List Char) :
    splitNl ('\n' :: cs) = [] :: splitNl cs := by
  simp [splitNl]

/-- Joining the pieces of a split returns the original string. -/
theorem joinNl_splitNl (l : List Char) : joinNl (splitNl l) = l := by
  induction l with
  | nil => rfl
  | cons c cs ih =>
    obtain ⟨r₀, rs, hr⟩ : ∃ r₀ rs, splitNl cs = r₀ :: rs := by
      cases h : splitNl cs with
      | nil => exact absurd h (splitNl_ne_nil cs)
      | cons a b => exact ⟨a, b, rfl⟩
    by_cases h : c = '\n'
    · subst h
      rw [splitNl_cons_nl, hr]
      rw [hr] at ih
      cases rs with
      | nil =>
        simp [joinNl] at ih ⊢
        exact ih
      | cons s ss =>
        simp [joinNl] at ih ⊢
        exact ih
    · rw [splitNl_cons_ne c cs h, hr]
      rw [hr] at ih
      cases rs with
      | nil =>
        simp [joinNl] at ih ⊢
        exact ih
      | cons s ss =>
        simp only [joinNl, List.headI, List.tail_cons] at ih ⊢
        rw [List.cons_append, ih]

/-- The number of pieces is the newline count plus one. -/
theorem length_splitNl (l : List Char) : (splitNl l).length = l.count '\n' + 1 := by
  induction l with
  | nil => simp [splitNl]
  | cons c cs ih =>
    by_cases h : c = '\n'
    · subst h
      rw [splitNl_cons_nl]
      simp [List.count_cons, ih]
    · rw [splitNl_cons_ne c cs h]
      have hne := splitNl_ne_nil cs
      have : (splitNl cs).length = (splitNl cs).tail.length + 1 := by
        cases hsp : splitNl cs with
        | nil => exact absurd hsp hne
        | cons a b => simp
      simp only [List.length_cons]
      rw [List.count_cons]
      simp only [beq_iff_eq]
      rw [if_neg (by simpa using h)]
      omega

/-- No piece of a split contains a newline. -/
theorem count_of_mem_splitNl (l : List Char) : ∀ p ∈ splitNl l, p.count '\n' = 0 := by
  induction l with
  | nil =>
    intro p hp
    simp [splitNl] at hp
    simp [hp]
  | cons c cs ih =>
    intro p hp
    obtain ⟨r₀, rs, hr⟩ : ∃ r₀ rs, splitNl cs = r₀ :: rs := by
      cases h : splitNl cs with
      | nil => exact absurd h (splitNl_ne_nil cs)
      | cons a b => exact ⟨a, b, rfl⟩
    by_cases h : c = '\n'
    · subst h
      rw [splitNl_cons_nl] at hp
      rcases List.mem_cons.mp hp with h1 | h2
      · simp [h1]
      · exact ih p h2
    · rw [splitNl_cons_ne c cs h, hr] at hp
      rcases List.mem_cons.mp hp with h1 | h2
      · subst h1
        rw [List.count_cons]
        have h0 : r₀.count '\n' = 0 := by
          have : r₀ ∈ splitNl cs := by rw [hr]; exact List.mem_cons_self r₀ rs
          simpa [hr] using ih r₀ this
        simp only [hr, List.headI]
        rw [h0]
        simp [h]
      · have : p ∈ splitNl cs := by rw [hr]; exact List.mem_cons_of_mem r₀ h2
        exact ih p this

/-- Joining newline-free pieces produces exactly `length - 1` newlines. -/
theorem count_joinNl (xs : List (List Char)) (hfree : ∀ p ∈ xs, p.count '\n' = 0)
    (hne : xs ≠ []) : (joinNl xs).count '\n' = xs.length - 1 := by
  induction xs with
  | nil => exact absurd rfl hne
  | cons x ys ih =>
    cases ys with
    | nil =>
      simp [joinNl, hfree x (List.mem_cons_self x [])]
    | cons y zs =>
      have hx : x.count '\n' = 0 := hfree x (List.mem_cons_self x (y :: zs))
      have hrest : ∀ p ∈ y :: zs, p.count '\n' = 0 := fun p hp =>
        hfree p (List.mem_cons_of_mem x hp)
      have := ih hrest (by simp)
      simp only [joinNl, List.count_append, List.count_cons, hx, this]
      simp

/-- Joining a `take` of the pieces yields a prefix of the join of all pieces. -/
theorem joinNl_take_pre (n : Nat) (xs : List (List Char)) :
    joinNl (xs.take n) <+: joinNl xs := by
  induction xs generalizing n with
  | nil => simp
  | cons x ys ih =>
    cases n with
    | zero => simp [joinNl]
    | succ m =>
      cases ys with
      | nil => simp [joinNl]
      | cons y zs =>
        cases m with
        | zero =>
          simp only [List.take_succ_cons, List.take_zero, joinNl]
          exact ⟨'\n' :: joinNl (y :: zs), rfl⟩
        | succ k =>
          have hkey : joinNl (y :: zs.take k) <+: joinNl (y :: zs) := by
            simpa [List.take_succ_cons] using ih (k + 1)
          simp only [List.take_succ_cons, joinNl]
          obtain ⟨t, ht⟩ := hkey
          exact ⟨t, by rw [← ht]; simp⟩

/-! ### Safety truncation and quality selection (renderer.py, lines 85-136) -/

/-- Python constant `QUALITY_SCALE` (config/constants.py). -/
def QUALITY_SCALE : Nat := 3

/-- The trailing text appended after truncation (renderer.py line 108). -/
def truncation_notice : List Char := str "\n\n... (content truncated for image generation)"

/-- Python `code.count('\n') + 1`, the source's line-count measure. -/
def line_count (c : List Char) : Nat := c.count '\n' + 1

/-- Lines 95-98: keep only the first `MAX_LINES_FOR_IMAGE = 150` lines. -/
def cap_lines (c : List Char) : List Char :=
  if (splitNl c).length > 150 then joinNl ((splitNl c).take 150) else c

/-- Lines 102-105: trim back to the last newline when that boundary sits past
80% of the string (`last_newline > len(code) * 0.8`; the length is 15000 at
the call site, so the float comparison is the exact test `5 * ln > 4 * len`;
a Python `rfind` result of `-1` fails the test just as `none` does here). -/
def trim_to_newline (t : List Char) : List Char :=
  match lastNlIdx t with
  | some ln => if 5 * ln > 4 * t.length then t.take ln else t
  | none => t

/-- Lines 100-105: cut to `MAX_CHARS_FOR_IMAGE = 15000` characters, then trim
back to the last prior newline when that boundary sits past 80% of the cut. -/
def cap_chars (c : List Char) : List Char :=
  if c.length > 15000 then trim_to_newline (c.take 15000) else c

/-- Lines 90-110 of `create_code_image`: the safety truncation applied before
any rendering. Over-cap inputs are line-capped, char-capped, and get the
truncation notice appended; under-cap inputs pass through unmodified. -/
def truncate_code_for_image (c : List Char) : List Char :=
  if line_count c > 150 ∨ c.length > 15000 then
    cap_chars (cap_lines c) ++ truncation_notice
  else c

/-- Lines 121-136: dynamic quality scale and adjusted font size, computed from
the (possibly already truncated) code. -/
def select_quality (c : List Char) (font_size : Int) : Nat × Int :=
  if c.length > 20000 ∨ line_count c > 200 then (1, max 8 (font_size - 4))
  else if c.length > 10000 ∨ line_count c > 100 then (2, max 10 (font_size - 2))
  else (QUALITY_SCALE, font_size)

/-- The quality scale and effective font size `create_code_image` renders
with: truncation (lines 90-110) followed by quality selection (lines 121-136). -/
def create_code_image_quality (c : List Char) (font_size : Int) : Nat × Int :=
  select_quality (truncate_code_for_image c) font_size


/-! ### Bounds satisfied by the truncation -/

theorem take_isPre (n : Nat) (l : List Char) : l.take n <+: l :=
  ⟨l.drop n, List.take_append_drop n l⟩

theorem trim_to_newline_pre (t : List Char) : trim_to_newline t <+: t := by
  unfold trim_to_newline
  cases hidx : lastNlIdx t with
  | none => exact List.prefix_refl t
  | some ln =>
    simp only
    split
    · exact take_isPre ln t
    · exact List.prefix_refl t

theorem trim_to_newline_length_ge (t : List Char) :
    4 * t.length ≤ 5 * (trim_to_newline t).length := by
  unfold trim_to_newline
  cases hidx : lastNlIdx t with
  | none =>
    show 4 * t.length ≤ 5 * t.length
    omega
  | some ln =>
    simp only
    split
    · rename_i hln
      rw [List.length_take]
      omega
    · omega

theorem cap_lines_count (c : List Char) : (cap_lines c).count '\n' ≤ 149 := by
  unfold cap_lines
  split
  · rename_i h
    have hfree : ∀ p ∈ (splitNl c).take 150, p.count '\n' = 0 := fun p hp =>
      count_of_mem_splitNl c p ((List.take_subset 150 (splitNl c)) hp)
    have hne : (splitNl c).take 150 ≠ [] := by
      have hl : ((splitNl c).take 150).length = min 150 (splitNl c).length :=
        List.length_take ..
      intro hnil
      rw [hnil] at hl
      simp at hl
      omega
    have hlen : ((splitNl c).take 150).length ≤ 150 := by
      rw [List.length_take]; omega
    rw [count_joinNl _ hfree hne]
    omega
  · rename_i h
    have := length_splitNl c
    omega

theorem cap_lines_pre (c : List Char) : cap_lines c <+: c := by
  unfold cap_lines
  split
  · have := joinNl_take_pre 150 (splitNl c)
    rwa [joinNl_splitNl c] at this
  · exact List.prefix_refl c

theorem cap_chars_length_le (x : List Char) : (cap_chars x).length ≤ 15000 := by
  unfold cap_chars
  split
  · rename_i h
    have hpre := (trim_to_newline_pre (x.take 15000)).length_le
    have hl : (x.take 15000).length = 15000 := by
      rw [List.length_take]; omega
    omega
  · rename_i h
    omega

theorem cap_chars_pre (x : List Char) : cap_chars x <+: x := by
  unfold cap_chars
  split
  · exact (trim_to_newline_pre (x.take 15000)).trans (take_isPre 15000 x)
  · exact List.prefix_refl x

theorem cap_chars_count (x : List Char) : (cap_chars x).count '\n' ≤ x.count '\n' :=
  (cap_chars_pre x).count_le '\n'

theorem truncation_notice_stats :
    truncation_notice.length = 46 ∧ truncation_notice.count '\n' = 2 := by
  constructor <;> rfl

/-- After truncation and before quality selection the code is at most 15046
characters (the 15000-character cap plus the 46-character notice) and 152
lines (150 capped lines plus the two newlines of the notice). -/
theorem truncate_bounds (c : List Char) :
    (truncate_code_for_image c).length ≤ 15046 ∧
    line_count (truncate_code_for_image c) ≤ 152 := by
  unfold truncate_code_for_image
  split
  · have h1 := cap_chars_length_le (cap_lines c)
    have h2 : (cap_chars (cap_lines c)).count '\n' ≤ 149 :=
      le_trans (cap_chars_count (cap_lines c)) (cap_lines_count c)
    have h3 := truncation_notice_stats
    refine ⟨?_, ?_⟩
    · rw [List.length_append]
      omega
    · unfold line_count
      rw [List.count_append]
      omega
  · rename_i h
    push_neg at h
    unfold line_count at h ⊢
    exact ⟨by omega, by omega⟩

/-! ### Claim C5: safety truncation -/

/-- C5: code over the absolute caps (more than 150 lines or more than 15000
characters) is cut to the caps — the result before the notice is a prefix of
the input of at most 15000 characters and 150 lines, obtained by the
line-cap, char-cap and trim-to-newline steps — and the truncation notice is
appended as trailing text; code at or below both caps is returned unmodified,
with no truncation and no marker. -/
theorem c5_truncation_policy (c : List Char) :
    (line_count c ≤ 150 ∧ c.length ≤ 15000 → truncate_code_for_image c = c) ∧
    (line_count c > 150 ∨ c.length > 15000 →
      truncate_code_for_image c = cap_chars (cap_lines c) ++ truncation_notice ∧
      cap_chars (cap_lines c) <+: c ∧
      (cap_chars (cap_lines c)).length ≤ 15000 ∧
      line_count (cap_chars (cap_lines c)) ≤ 150) := by
  constructor
  · rintro ⟨h1, h2⟩
    unfold truncate_code_for_image
    rw [if_neg (by omega)]
  · intro h
    refine ⟨?_, (cap_chars_pre (cap_lines c)).trans (cap_lines_pre c),
      cap_chars_length_le (cap_lines c), ?_⟩
    · unfold truncate_code_for_image
      rw [if_pos h]
    · have := le_trans (cap_chars_count (cap_lines c)) (cap_lines_count c)
      unfold line_count
      omega

/-- A 151-line input, used to exercise the over-cap branch. -/
def ex_over_lines : List Char := joinNl (List.replicate 151 (str "a"))

theorem c5_truncation_policy_witness :
    truncate_code_for_image (str "print") = str "print" ∧
    truncate_code_for_image ex_over_lines =
      cap_chars (cap_lines ex_over_lines) ++ truncation_notice :=
  ⟨(c5_truncation_policy (str "print")).1 (by decide),
   ((c5_truncation_policy ex_over_lines).2 (by decide)).1⟩

/-! ### Claim C8: the low-quality branch is unreachable -/

/-- C8: for every input the quality scale selected by `create_code_image`
is 2 or 3 and never 1: the truncation that precedes quality selection bounds
the code to at most 15046 characters and 152 lines, strictly below the
20000-character / 200-line thresholds of the low-quality branch. -/
theorem c8_quality_scale_never_low (c : List Char) (fs : Int) :
    ((truncate_code_for_image c).length ≤ 15046 ∧
      line_count (truncate_code_for_image c) ≤ 152) ∧
    ((create_code_image_quality c fs).1 = 2 ∨
      (create_code_image_quality c fs).1 = 3) := by
  have hb := truncate_bounds c
  refine ⟨hb, ?_⟩
  unfold create_code_image_quality select_quality
  rw [if_neg (by omega)]
  split
  · left; rfl
  · right; rfl

/-! ### Claim C1: which quality path a 250-line input takes -/

/-- Any input with more than 150 lines is line-capped to exactly 149 newlines. -/
theorem cap_lines_count_eq (c : List Char) (h : 150 < line_count c) :
    (cap_lines c).count '\n' = 149 := by
  unfold cap_lines
  have hsp : (splitNl c).length = line_count c := by
    rw [length_splitNl]; rfl
  rw [if_pos (by omega)]
  have hfree : ∀ p ∈ (splitNl c).take 150, p.count '\n' = 0 := fun p hp =>
    count_of_mem_splitNl c p ((List.take_subset 150 (splitNl c)) hp)
  have hl : ((splitNl c).take 150).length = 150 := by
    rw [List.length_take]; omega
  have hne : (splitNl c).take 150 ≠ [] := by
    intro hnil
    rw [hnil] at hl
    simp at hl
  rw [count_joinNl _ hfree hne, hl]

/-- Any 250-line input renders on the medium-quality path: scale 2 with the
font size reduced by 2 (floored at 10). -/
theorem medium_quality_of_250_lines (c : List Char) (fs : Int)
    (h : line_count c = 250) :
    create_code_image_quality c fs = (2, max 10 (fs - 2)) := by
  have hover : line_count c > 150 ∨ c.length > 15000 := Or.inl (by omega)
  have htr : truncate_code_for_image c = cap_chars (cap_lines c) ++ truncation_notice := by
    unfold truncate_code_for_image
    rw [if_pos hover]
  have hxcount : (cap_lines c).count '\n' = 149 := cap_lines_count_eq c (by omega)
  have hcond : (cap_chars (cap_lines c) ++ truncation_notice).length > 10000 ∨
      line_count (cap_chars (cap_lines c) ++ truncation_notice) > 100 := by
    by_cases hxl : (cap_lines c).length ≤ 15000
    · right
      have hcc : cap_chars (cap_lines c) = cap_lines c := by
        unfold cap_chars
        rw [if_neg (by omega)]
      rw [hcc]
      unfold line_count
      rw [List.count_append, hxcount, truncation_notice_stats.2]
      omega
    · left
      have hcc : cap_chars (cap_lines c) = trim_to_newline ((cap_lines c).take 15000) := by
        unfold cap_chars
        rw [if_pos (by omega)]
      rw [hcc, List.length_append]
      have h15 : ((cap_lines c).take 15000).length = 15000 := by
        rw [List.length_take]; omega
      have hge := trim_to_newline_length_ge ((cap_lines c).take 15000)
      rw [h15] at hge
      omega
  have hb := truncate_bounds c
  rw [htr] at hb
  unfold create_code_image_quality select_quality
  rw [htr, if_neg (by omega), if_pos hcond]

/-- Any input of at most 50 lines and at most 10000 characters renders at
full quality with the requested font size unchanged. -/
theorem full_quality_of_small (c : List Char) (fs : Int)
    (h1 : line_count c ≤ 50) (h2 : c.length ≤ 10000) :
    create_code_image_quality c fs = (QUALITY_SCALE, fs) := by
  have hid : truncate_code_for_image c = c := by
    unfold truncate_code_for_image
    rw [if_neg (by omega)]
  unfold create_code_image_quality select_quality
  rw [hid, if_neg (by omega), if_neg (by omega)]

/-- A 250-line input: 250 lines of a single character each. -/
def ex_250_lines : List Char := joinNl (List.replicate 250 (str "a"))

/-- A one-line input of 12000 characters (at most 50 lines, over 10000 chars). -/
def ex_long_line : List Char := List.replicate 12000 'a'

/-- C1 counterexample: the 250-line input from the claim renders with quality
scale 2 and font size 12 — not the claimed low-quality path (scale 1, font
size 14 - 4 = 10) — and a 1-line input of 12000 characters at the same
requested font size renders at scale 2 with font 12, not full quality with
the font unchanged. -/
theorem c1_counterexample :
    line_count ex_250_lines = 250 ∧
    create_code_image_quality ex_250_lines 14 = (2, 12) ∧
    create_code_image_quality ex_250_lines 14 ≠ (1, 14 - 4) ∧
    line_count ex_long_line ≤ 50 ∧
    create_code_image_quality ex_long_line 14 = (2, 12) ∧
    create_code_image_quality ex_long_line 14 ≠ (3, 14) := by
  have hlc : ex_long_line.count '\n' = 0 := by
    unfold ex_long_line
    rw [List.count_replicate]
    simp
  have hll : ex_long_line.length = 12000 := by
    unfold ex_long_line
    rw [List.length_replicate]
  have htr : truncate_code_for_image ex_long_line = ex_long_line := by
    unfold truncate_code_for_image line_count
    rw [hlc, hll]
    norm_num
  have hqlong : create_code_image_quality ex_long_line 14 = (2, 12) := by
    unfold create_code_image_quality
    rw [htr]
    unfold select_quality line_count
    rw [hlc, hll]
    norm_num
  have hq250 : create_code_image_quality ex_250_lines 14 = (2, 12) := by decide
  refine ⟨by decide, hq250, ?_, ?_, hqlong, ?_⟩
  · rw [hq250]; decide
  · unfold line_count; rw [hlc]; omega
  · rw [hqlong]; decide

/-- C1 (amended): a 250-line input is first truncated to 150 lines and so
renders via the medium-quality path — scale 2 and font size reduced by 2px
(floored at 10) — not the low-quality path; an input of at most 50 lines and
at most 10000 characters renders at full quality (scale 3) with the requested
font size unchanged. -/
theorem c1_amended_quality_paths (c : List Char) (fs : Int) :
    (line_count c = 250 → create_code_image_quality c fs = (2, max 10 (fs - 2))) ∧
    (line_count c ≤ 50 → c.length ≤ 10000 →
      create_code_image_quality c fs = (QUALITY_SCALE, fs)) :=
  ⟨medium_quality_of_250_lines c fs, full_quality_of_small c fs⟩

theorem c1_amended_quality_paths_witness :
    create_code_image_quality ex_250_lines 14 = (2, max 10 (14 - 2)) ∧
    create_code_image_quality (str "print") 14 = (QUALITY_SCALE, 14) :=
  ⟨(c1_amended_quality_paths ex_250_lines 14).1 (by decide),
   (c1_amended_quality_paths (str "print") 14).2 (by decide) (by decide)⟩

/-! ### Parameter validation (src/src/utils/validation.py) and the
  enumerated domains (src/config/constants.py) -/

/-- Keys of `THEME_MAPPINGS`, i.e. `AVAILABLE_THEMES`, in insertion order. -/
def AVAILABLE_THEMES : List (List Char) :=
  [str "dracula", str "nord", str "monokai", str "material", str "one-dark",
   str "gruvbox-dark", str "tokyo-night", str "catppuccin", str "github-dark",
   str "solarized-dark", str "zenburn", str "vim", str "native", str "fruity",
   str "rrt", str "paraiso-dark", str "stata-dark", str "nord-darker",
   str "emacs", str "terminal", str "hacker", str "cyberpunk",
   str "solarized-light", str "vs", str "github-light", str "xcode",
   str "atom-light", str "intellij-light", str "sublime-light", str "friendly",
   str "pastie", str "tango", str "murphy", str "colorful", str "gruvbox-light",
   str "paraiso-light", str "stata-light"]

def AVAILABLE_FRAMES : List (List Char) :=
  [str "macos", str "windows", str "floating", str "minimal", str "none"]

def AVAILABLE_BACKGROUNDS : List (List Char) :=
  [str "purple", str "cyan", str "orange", str "pink", str "green", str "blue",
   str "red", str "yellow", str "magenta", str "teal", str "lime", str "indigo",
   str "violet", str "coral", str "turquoise",
   str "neon-purple", str "transparent",
   str "#1a1a2e", str "#16213e", str "#0f3460", str "#533483", str "#7209b7",
   str "#2d1b69", str "#0c0c0c", str "#1e1e1e", str "#2d2d2d", str "#3c3c3c",
   str "#4a4a4a"]

def AVAILABLE_FONTS : List (List Char) :=
  [str "fira-code", str "jetbrains-mono", str "source-code-pro", str "system"]

/-- Keys of `BACKGROUND_COLORS` (the named solid colors). -/
def BACKGROUND_COLOR_NAMES : List (List Char) :=
  [str "purple", str "cyan", str "orange", str "pink", str "green", str "blue",
   str "red", str "yellow", str "magenta", str "teal", str "lime", str "indigo",
   str "violet", str "coral", str "turquoise"]

/-- `ValidationResult`: the per-request accumulator of random selections and
fallback notices (validation.py lines 20-25). -/
structure ValidationResult where
  random_selections : List (List Char)
  fallback_notifications : List (List Char)
  deriving DecidableEq, Repr

/-- Python `random.choice(l)`: the draw is modelled by an arbitrary index `k`
reduced modulo the list length, so every draw is a member of the list. -/
def random_choice (l : List (List Char)) (k : Nat) : List Char :=
  l.getD (k % l.length) []

theorem random_choice_mem (l : List (List Char)) (k : Nat) (h : l ≠ []) :
    random_choice l k ∈ l := by
  unfold random_choice
  have hl : 0 < l.length := List.length_pos.mpr h
  have hk : k % l.length < l.length := Nat.mod_lt k hl
  rw [List.getD_eq_getElem l [] hk]
  exact List.getElem_mem hk

/-- validation.py lines 124-130: `#` followed by 3 or 6 hex digits. -/
def _is_valid_hex_color (color : List Char) : Bool :=
  (str "#").isPrefixOf color &&
  (color.length == 4 || color.length == 7) &&
  (color.drop 1).all (fun c => (str "0123456789abcdefABCDEF").contains c)

/-- validation.py lines 28-40: `validate_theme`. -/
def validate_theme (theme : Option (List Char)) (k : Nat) (r : ValidationResult) :
    List Char × ValidationResult :=
  match theme with
  | none => (random_choice AVAILABLE_THEMES k,
      { r with random_selections := r.random_selections ++ [str "Theme"] })
  | some t =>
    if t ∈ AVAILABLE_THEMES then (t, r)
    else (str "dracula",
      { r with fallback_notifications := r.fallback_notifications ++
          [str "Invalid theme '" ++ t ++ str "', using 'dracula'"] })

/-- validation.py lines 43-55: `validate_frame_style`. -/
def validate_frame_style (frame_style : Option (List Char)) (k : Nat)
    (r : ValidationResult) : List Char × ValidationResult :=
  match frame_style with
  | none => (random_choice AVAILABLE_FRAMES k,
      { r with random_selections := r.random_selections ++ [str "Frame"] })
  | some f =>
    if f ∈ AVAILABLE_FRAMES then (f, r)
    else (str "macos",
      { r with fallback_notifications := r.fallback_notifications ++
          [str "Invalid frame style '" ++ f ++ str "', using 'macos'"] })

/-- validation.py lines 58-70: `validate_background` (a present value passes
when it is in the enumerated domain or is a valid hex color). -/
def validate_background (background : Option (List Char)) (k : Nat)
    (r : ValidationResult) : List Char × ValidationResult :=
  match background with
  | none => (random_choice AVAILABLE_BACKGROUNDS k,
      { r with random_selections := r.random_selections ++ [str "Background"] })
  | some b =>
    if b ∉ AVAILABLE_BACKGROUNDS ∧ _is_valid_hex_color b = false then
      (str "purple",
        { r with fallback_notifications := r.fallback_notifications ++
            [str "Invalid background '" ++ b ++ str "', using 'purple'"] })
    else (b, r)

/-- validation.py lines 73-83: `validate_font_family`. -/
def validate_font_family (font_family : Option (List Char)) (k : Nat)
    (r : ValidationResult) : List Char × ValidationResult :=
  match font_family with
  | none => (random_choice AVAILABLE_FONTS k,
      { r with random_selections := r.random_selections ++ [str "Font"] })
  | some f =>
    if f ∈ AVAILABLE_FONTS then (f, r)
    else (str "fira-code",
      { r with fallback_notifications := r.fallback_notifications ++
          [str "Invalid font family '" ++ f ++ str "', using 'fira-code'"] })

/-- validation.py lines 86-98: `validate_font_size`. A supplied value is
either an int (`Sum.inl`) or a value of some other type, modelled by its
string rendering (`Sum.inr`); `random.randint(12, 18)` is modelled as
`12 + k % 7`. -/
def validate_font_size (font_size : Option (Int ⊕ List Char)) (k : Nat)
    (r : ValidationResult) : Int × ValidationResult :=
  match font_size with
  | none => (((12 + k % 7 : Nat) : Int),
      { r with random_selections := r.random_selections ++ [str "Font Size"] })
  | some (.inl n) =>
    if n < 8 ∨ n > 32 then
      (14, { r with fallback_notifications := r.fallback_notifications ++
          [str "Invalid font size '" ++ str (toString n) ++ str "', using 14"] })
    else (n, r)
  | some (.inr s) =>
    (14, { r with fallback_notifications := r.fallback_notifications ++
        [str "Invalid font size '" ++ s ++ str "', using 14"] })

/-- validation.py lines 101-114: `validate_boolean_with_random`. A supplied
value is either a bool (`Sum.inl`) or a non-bool modelled by its string
rendering (`Sum.inr`); the weighted coin is the explicit argument `draw`.
The source appends the parameter name to the random-selections list only
inside `if value:` — that is, only when the draw came up true. -/
def validate_boolean_with_random (value : Option (Bool ⊕ List Char))
    (param_name : List Char) (dflt : Bool) (r : ValidationResult)
    (draw : Bool) : Bool × ValidationResult :=
  match value with
  | none =>
    (draw, if draw then
      { r with random_selections := r.random_selections ++ [param_name] }
    else r)
  | some (.inl b) => (b, r)
  | some (.inr s) =>
    (dflt, { r with fallback_notifications := r.fallback_notifications ++
        [str "Invalid " ++ param_name.map Char.toLower ++ str " value '" ++ s ++
          str "', using " ++ (if dflt then str "True" else str "False")] })

/-! ### Background dispatch (src/src/utils/backgrounds.py, lines 32-49) -/

/-- The branch of `create_frame_background` selected for a background value. -/
inductive BgBranch where
  | transparent
  | gradient
  | neon
  | solid_named
  | hex_or_default
  deriving DecidableEq, Repr

/-- backgrounds.py lines 32-49: which branch of `create_frame_background`
runs — the transparent canvas, the "gradient-" handling, the neon
grid-pattern generator (`create_neon_background`), the named solid color, or
the literal-hex / neutral-default fallthrough. -/
def create_frame_background_branch (background : List Char) : BgBranch :=
  if background = str "transparent" then .transparent
  else if str "gradient-" <+: background then .gradient
  else if str "neon-" <+: background then .neon
  else if background ∈ BACKGROUND_COLOR_NAMES then .solid_named
  else .hex_or_default

/-! ### Claim C2: reachability of the prefix branches -/

/-- C2 counterexample: `"neon-purple"` is in the enumerated, validated
background domain, passes validation unchanged with no notice, and selects
the neon grid-pattern branch of `create_frame_background` — so the "neon-"
prefix handling is reachable through the validated domain. -/
theorem c2_counterexample :
    str "neon-purple" ∈ AVAILABLE_BACKGROUNDS ∧
    validate_background (some (str "neon-purple")) 0 ⟨[], []⟩ =
      (str "neon-purple", ⟨[], []⟩) ∧
    create_frame_background_branch (str "neon-purple") = BgBranch.neon := by
  refine ⟨by decide, by decide, by decide⟩

theorem hash_headed_branch (rest : List Char) :
    create_frame_background_branch ('#' :: rest) ≠ BgBranch.gradient ∧
    create_frame_background_branch ('#' :: rest) ≠ BgBranch.neon := by
  have h1 : ¬('#' :: rest = str "transparent") := by
    rw [show str "transparent" = 't' :: str "ransparent" from rfl]
    simp
  have h2 : ¬(str "gradient-" <+: '#' :: rest) := by
    rw [show str "gradient-" = 'g' :: str "radient-" from rfl]
    rw [List.cons_prefix_cons]
    simp
  have h3 : ¬(str "neon-" <+: '#' :: rest) := by
    rw [show str "neon-" = 'n' :: str "eon-" from rfl]
    rw [List.cons_prefix_cons]
    simp
  unfold create_frame_background_branch
  rw [if_neg h1, if_neg h2, if_neg h3]
  constructor <;> split <;> simp

/-- C2 (amended): through the validated background domain — the enumerated
list or a valid hex color — the "gradient-" branch of
`create_frame_background` is indeed unreachable, but the "neon-" branch is
not dead code: it is reached exactly by the domain member "neon-purple". -/
theorem c2_amended_prefix_reachability (bg : List Char)
    (h : bg ∈ AVAILABLE_BACKGROUNDS ∨ _is_valid_hex_color bg = true) :
    create_frame_background_branch bg ≠ BgBranch.gradient ∧
    (create_frame_background_branch bg = BgBranch.neon ↔ bg = str "neon-purple") := by
  rcases h with h | h
  · fin_cases h <;> refine ⟨by decide, by constructor <;> intro hh <;> revert hh <;> decide⟩
  · obtain ⟨rest, rfl⟩ : ∃ rest, bg = '#' :: rest := by
      unfold _is_valid_hex_color at h
      simp only [Bool.and_eq_true] at h
      have hpre : str "#" <+: bg := by
        have := h.1.1
        rwa [ List.isPrefixOf_iff_prefix] at this
      obtain ⟨t, ht⟩ := hpre
      exact ⟨t, ht.symm⟩
    have hb := hash_headed_branch rest
    refine ⟨hb.1, ?_⟩
    constructor
    · intro hh
      exact absurd hh hb.2
    · intro hh
      rw [show str "neon-purple" = 'n' :: str "eon-purple" from rfl] at hh
      simp at hh

theorem c2_amended_prefix_reachability_witness :
    (str "neon-purple" ∈ AVAILABLE_BACKGROUNDS ∨
      _is_valid_hex_color (str "neon-purple") = true) ∧
    create_frame_background_branch (str "neon-purple") ≠ BgBranch.gradient :=
  ⟨Or.inl (by decide),
   (c2_amended_prefix_reachability (str "neon-purple") (Or.inl (by decide))).1⟩

/-! ### Claim C4: recording of randomly filled parameters -/

/-- C4 counterexample: with shadow unset and the weighted coin landing on
false, the resolved value is false but `"Shadow"` is not appended to the
random-selections list — the source records the name only when the draw is
true — refuting the claim that unset booleans are recorded regardless of the
draw. -/
theorem c4_counterexample :
    (validate_boolean_with_random none (str "Shadow") true ⟨[], []⟩ false).1 = false ∧
    (validate_boolean_with_random none (str "Shadow") true ⟨[], []⟩
      false).2.random_selections = [] :=
  ⟨rfl, rfl⟩

/-- C4 (amended): every unset non-boolean parameter has its name appended to
the random-selections list and resolves to a member of its domain (font size
into [8,32]); an unset boolean resolves to the weighted draw, but its name is
appended only when the draw yields true. -/
theorem c4_amended_random_recording (k : Nat) (r : ValidationResult)
    (p : List Char) (d : Bool) (draw : Bool) :
    ((validate_theme none k r).2.random_selections =
        r.random_selections ++ [str "Theme"] ∧
      (validate_theme none k r).1 ∈ AVAILABLE_THEMES) ∧
    ((validate_frame_style none k r).2.random_selections =
        r.random_selections ++ [str "Frame"] ∧
      (validate_frame_style none k r).1 ∈ AVAILABLE_FRAMES) ∧
    ((validate_background none k r).2.random_selections =
        r.random_selections ++ [str "Background"] ∧
      (validate_background none k r).1 ∈ AVAILABLE_BACKGROUNDS) ∧
    ((validate_font_family none k r).2.random_selections =
        r.random_selections ++ [str "Font"] ∧
      (validate_font_family none k r).1 ∈ AVAILABLE_FONTS) ∧
    ((validate_font_size none k r).2.random_selections =
        r.random_selections ++ [str "Font Size"] ∧
      8 ≤ (validate_font_size none k r).1 ∧ (validate_font_size none k r).1 ≤ 32) ∧
    ((validate_boolean_with_random none p d r draw).1 = draw ∧
      (validate_boolean_with_random none p d r draw).2.random_selections =
        r.random_selections ++ (if draw then [p] else [])) := by
  refine ⟨⟨rfl, random_choice_mem _ k (by decide)⟩,
    ⟨rfl, random_choice_mem _ k (by decide)⟩,
    ⟨rfl, random_choice_mem _ k (by decide)⟩,
    ⟨rfl, random_choice_mem _ k (by decide)⟩,
    ⟨rfl, ?_, ?_⟩, ?_, ?_⟩
  · unfold validate_font_size
    have : k % 7 < 7 := Nat.mod_lt k (by omega)
    simp only
    omega
  · unfold validate_font_size
    have : k % 7 < 7 := Nat.mod_lt k (by omega)
    simp only
    omega
  · cases draw <;> rfl
  · cases draw <;> simp [validate_boolean_with_random]

/-! ### Claim C6: invalid values fall back to documented defaults -/

/-- C6: every present-but-invalid parameter value is silently replaced by the
documented default — theme "dracula", frame "macos", background "purple",
font "fira-code", font size 14 (for out-of-range ints and non-int values),
boolean the caller-supplied default — and a fallback notice containing the
original invalid value is appended; the validators are total functions, so no
error is ever raised. -/
theorem c6_invalid_fallbacks (k : Nat) (r : ValidationResult) :
    (∀ t, t ∉ AVAILABLE_THEMES →
      validate_theme (some t) k r =
        (str "dracula", { r with fallback_notifications := r.fallback_notifications ++
          [str "Invalid theme '" ++ t ++ str "', using 'dracula'"] }) ∧
      t <:+: str "Invalid theme '" ++ t ++ str "', using 'dracula'") ∧
    (∀ f, f ∉ AVAILABLE_FRAMES →
      validate_frame_style (some f) k r =
        (str "macos", { r with fallback_notifications := r.fallback_notifications ++
          [str "Invalid frame style '" ++ f ++ str "', using 'macos'"] }) ∧
      f <:+: str "Invalid frame style '" ++ f ++ str "', using 'macos'") ∧
    (∀ b, b ∉ AVAILABLE_BACKGROUNDS → _is_valid_hex_color b = false →
      validate_background (some b) k r =
        (str "purple", { r with fallback_notifications := r.fallback_notifications ++
          [str "Invalid background '" ++ b ++ str "', using 'purple'"] }) ∧
      b <:+: str "Invalid background '" ++ b ++ str "', using 'purple'") ∧
    (∀ f, f ∉ AVAILABLE_FONTS →
      validate_font_family (some f) k r =
        (str "fira-code", { r with fallback_notifications := r.fallback_notifications ++
          [str "Invalid font family '" ++ f ++ str "', using 'fira-code'"] }) ∧
      f <:+: str "Invalid font family '" ++ f ++ str "', using 'fira-code'") ∧
    (∀ n : Int, n < 8 ∨ n > 32 →
      validate_font_size (some (.inl n)) k r =
        (14, { r with fallback_notifications := r.fallback_notifications ++
          [str "Invalid font size '" ++ str (toString n) ++ str "', using 14"] }) ∧
      str (toString n) <:+:
        str "Invalid font size '" ++ str (toString n) ++ str "', using 14") ∧
    (∀ s : List Char,
      validate_font_size (some (.inr s)) k r =
        (14, { r with fallback_notifications := r.fallback_notifications ++
          [str "Invalid font size '" ++ s ++ str "', using 14"] })) ∧
    (∀ p d (s : List Char),
      validate_boolean_with_random (some (.inr s)) p d r false =
        (d, { r with fallback_notifications := r.fallback_notifications ++
          [str "Invalid " ++ p.map Char.toLower ++ str " value '" ++ s ++
            str "', using " ++ (if d then str "True" else str "False")] }) ∧
      s <:+: str "Invalid " ++ p.map Char.toLower ++ str " value '" ++ s ++
        str "', using " ++ (if d then str "True" else str "False")) := by
  refine ⟨?_, ?_, ?_, ?_, ?_, ?_, ?_⟩
  · intro t ht
    refine ⟨?_, List.infix_append _ t _⟩
    simp only [validate_theme]
    rw [if_neg ht]
  · intro f hf
    refine ⟨?_, List.infix_append _ f _⟩
    simp only [validate_frame_style]
    rw [if_neg hf]
  · intro b hb hhex
    refine ⟨?_, List.infix_append _ b _⟩
    simp only [validate_background]
    rw [if_pos ⟨hb, hhex⟩]
  · intro f hf
    refine ⟨?_, List.infix_append _ f _⟩
    simp only [validate_font_family]
    rw [if_neg hf]
  · intro n hn
    refine ⟨?_, List.infix_append _ (str (toString n)) _⟩
    simp only [validate_font_size]
    rw [if_pos hn]
  · intro s
    rfl
  · intro p d s
    refine ⟨rfl, ?_⟩
    refine ⟨str "Invalid " ++ p.map Char.toLower ++ str " value '",
      str "', using " ++ (if d then str "True" else str "False"), ?_⟩
    simp

theorem c6_invalid_fallbacks_witness :
    str "sparkle" ∉ AVAILABLE_THEMES ∧
    (validate_theme (some (str "sparkle")) 0 ⟨[], []⟩).1 = str "dracula" ∧
    (validate_frame_style (some (str "oval")) 0 ⟨[], []⟩).1 = str "macos" ∧
    (validate_background (some (str "#12")) 0 ⟨[], []⟩).1 = str "purple" ∧
    (validate_font_family (some (str "comic-sans")) 0 ⟨[], []⟩).1 = str "fira-code" ∧
    (validate_font_size (some (.inl 99)) 0 ⟨[], []⟩).1 = 14 ∧
    (validate_boolean_with_random (some (.inr (str "maybe"))) (str "Shadow") true
      ⟨[], []⟩ false).1 = true := by
  refine ⟨by decide, ?_, ?_, ?_, ?_, ?_, ?_⟩
  · exact congrArg Prod.fst
      ((c6_invalid_fallbacks 0 ⟨[], []⟩).1 (str "sparkle") (by decide)).1
  · exact congrArg Prod.fst
      ((c6_invalid_fallbacks 0 ⟨[], []⟩).2.1 (str "oval") (by decide)).1
  · exact congrArg Prod.fst
      ((c6_invalid_fallbacks 0 ⟨[], []⟩).2.2.1 (str "#12") (by decide) (by decide)).1
  · exact congrArg Prod.fst
      ((c6_invalid_fallbacks 0 ⟨[], []⟩).2.2.2.1 (str "comic-sans") (by decide)).1
  · exact congrArg Prod.fst
      ((c6_invalid_fallbacks 0 ⟨[], []⟩).2.2.2.2.1 99 (by norm_num)).1
  · exact congrArg Prod.fst
      ((c6_invalid_fallbacks 0 ⟨[], []⟩).2.2.2.2.2.2 (str "Shadow") true
        (str "maybe")).1

/-! ### Frame geometry (src/src/core/generator.py, lines 115-124) -/

def PADDING : Nat := 80

def TITLE_BAR_HEIGHT : Nat := 50

def EXTRA_SPACE : Nat := 40

/-- generator.py lines 115-124: frame width and height computed from the code
image size, the frame style, and the shadow/reflection flags. The title bar
height is 50 unless the frame style is "none"; the extra space is 40 when
shadow or reflection is on, else 20; reflection adds `code_h // 2` to the
height. -/
def frame_dimensions (code_w code_h : Nat) (frame_style : List Char)
    (shadow reflection : Bool) : Nat × Nat :=
  let title_bar_height := if frame_style ≠ str "none" then TITLE_BAR_HEIGHT else 0
  let extra_space := if shadow || reflection then EXTRA_SPACE else 20
  let frame_width := code_w + PADDING * 2 + extra_space
  let frame_height := code_h + PADDING * 2 + title_bar_height + extra_space
  (frame_width, if reflection then frame_height + code_h / 2 else frame_height)

/-! ### Claim C3: reflection's contribution to the frame height -/

/-- C3 counterexample: with frame style "macos", shadow off and a 100-pixel
code image, enabling reflection takes the frame height from 330 to 400 — an
increase of 70, not the claimed 50 (half the code-image height) — because the
extra-space term also grows from 20 to 40. -/
theorem c3_counterexample :
    (frame_dimensions 400 100 (str "macos") false true).2 = 400 ∧
    (frame_dimensions 400 100 (str "macos") false false).2 = 330 ∧
    (frame_dimensions 400 100 (str "macos") false true).2 ≠
      (frame_dimensions 400 100 (str "macos") false false).2 + 100 / 2 :=
  ⟨by decide, by decide, by decide⟩

/-- C3 (amended): with all other parameters fixed and frame style ≠ "none",
enabling reflection increases the frame height by exactly `code_h / 2` when
shadow is enabled; when shadow is disabled it increases by `code_h / 2 + 20`,
because the extra-space term also grows from 20 to 40. -/
theorem c3_amended_reflection_height (cw ch : Nat) (fs : List Char)
    (sh : Bool) (h : fs ≠ str "none") :
    (frame_dimensions cw ch fs sh true).2 =
      (frame_dimensions cw ch fs sh false).2 + ch / 2 +
        (if sh then 0 else 20) := by
  cases sh
  · simp [frame_dimensions, PADDING, TITLE_BAR_HEIGHT, EXTRA_SPACE, h]
    omega
  · simp [frame_dimensions, PADDING, TITLE_BAR_HEIGHT, EXTRA_SPACE, h]

theorem c3_amended_reflection_height_witness :
    str "macos" ≠ str "none" ∧
    (frame_dimensions 400 100 (str "macos") true true).2 =
      (frame_dimensions 400 100 (str "macos") true false).2 + 100 / 2 +
        (if true then 0 else 20) :=
  ⟨by decide, c3_amended_reflection_height 400 100 (str "macos") true (by decide)⟩

/-! ### Response formatting (validation.py lines 133-165) and effect
  application (generator.py lines 148-159 and 196-217) -/

/-- Python `str.capitalize()`: first character uppercased, rest lowercased. -/
def py_capitalize (s : List Char) : List Char :=
  match s with
  | [] => []
  | c :: cs => c.toUpper :: cs.map Char.toLower

def py_title_go : Bool → List Char → List Char
  | _, [] => []
  | prev, c :: cs =>
    (if c.isAlpha then (if prev then c.toLower else c.toUpper) else c) ::
      py_title_go c.isAlpha cs

/-- Python `str.title()`: uppercase each letter that follows a non-letter,
lowercase the other letters. -/
def py_title (s : List Char) : List Char := py_title_go false s

/-- Python `sep.join(xs)`. -/
def join_sep (sep : List Char) : List (List Char) → List Char
  | [] => []
  | [x] => x
  | x :: y :: ys => x ++ sep ++ join_sep sep (y :: ys)

/-- generator.py lines 196-204: the effects list included in the response is
built from the resolved boolean flags alone. -/
def effects_list (shadow reflection border_glow rounded_corners : Bool) :
    List (List Char) :=
  (if shadow then [str "Shadow"] else []) ++
  (if reflection then [str "Reflection"] else []) ++
  (if border_glow then [str "Glow"] else []) ++
  (if rounded_corners then [str "Rounded"] else [])

/-- generator.py line 149: the shadow effect is applied to the canvas only
when the shadow flag is set AND the frame style is not "none". -/
def shadow_effect_applied (shadow : Bool) (frame_style : List Char) : Bool :=
  shadow && !(frame_style == str "none")

/-- validation.py lines 133-165: `format_response_text`, the summary string. -/
def format_response_text (language theme frame_style background font_family : List Char)
    (font_size : Int) (frame_width frame_height : Nat)
    (effects : List (List Char)) (r : ValidationResult) : List Char :=
  (str "🎨 **Code Screenshot Generated!**\n\n**Language**: " ++ py_capitalize language ++
   str "\n**Theme**: " ++ py_title theme ++
   str "\n**Frame**: " ++ py_title frame_style ++
   str "\n**Background**: " ++ py_title background ++
   str "\n**Font**: " ++ py_title font_family ++ str " (" ++ str (toString font_size) ++
   str "px)\n**Size**: " ++ str (toString frame_width) ++ str "×" ++
   str (toString frame_height) ++ str "px") ++
  (if effects ≠ [] then str " • Effects: " ++ join_sep (str ", ") effects else []) ++
  (if r.random_selections ≠ [] then
    str " • Random: " ++ join_sep (str ", ") r.random_selections ++ str " 🎲"
   else []) ++
  (if r.fallback_notifications ≠ [] then
    str "\n⚠️ **Fallbacks Applied**: " ++ join_sep (str "; ") r.fallback_notifications
   else []) ++
  str "\n\nPerfect for sharing! 🚀"

theorem join_sep_head_pre (sep x : List Char) (xs : List (List Char)) :
    x <+: join_sep sep (x :: xs) := by
  cases xs with
  | nil => exact List.prefix_refl x
  | cons y ys =>
    show x <+: x ++ sep ++ join_sep sep (y :: ys)
    exact ⟨sep ++ join_sep sep (y :: ys), by simp⟩

theorem isInf_app_left {l X : List Char} (C : List Char) (h : l <:+: X) :
    l <:+: X ++ C := by
  obtain ⟨s, t, hst⟩ := h
  exact ⟨s, t ++ C, by rw [← hst]; simp⟩

theorem isInf_app_right {l X : List Char} (C : List Char) (h : l <:+: X) :
    l <:+: C ++ X := by
  obtain ⟨s, t, hst⟩ := h
  exact ⟨C ++ s, t, by rw [← hst]; simp⟩

/-! ### Claim C9: summary lists effects from flags, not from application -/

/-- C9: for a request with shadow resolved true and frame style "none", the
shadow effect is not applied to the canvas, yet "Shadow" is in the effects
list and appears in the summary text: the summary reflects the resolved
boolean flags, not the effects actually applied. -/
theorem c9_shadow_listed_not_applied (refl glow round : Bool)
    (language theme background font_family : List Char) (fsz : Int)
    (w h : Nat) (r : ValidationResult) :
    shadow_effect_applied true (str "none") = false ∧
    str "Shadow" ∈ effects_list true refl glow round ∧
    str "Shadow" <:+:
      format_response_text language theme (str "none") background font_family
        fsz w h (effects_list true refl glow round) r := by
  have heff : effects_list true refl glow round =
      str "Shadow" :: ((if refl then [str "Reflection"] else []) ++
        (if glow then [str "Glow"] else []) ++
        (if round then [str "Rounded"] else [])) := by
    simp [effects_list]
  refine ⟨rfl, ?_, ?_⟩
  · rw [heff]
    exact List.mem_cons_self _ _
  · unfold format_response_text
    rw [if_pos (by rw [heff]; simp)]
    have h1 : str "Shadow" <+: join_sep (str ", ") (effects_list true refl glow round) := by
      rw [heff]
      exact join_sep_head_pre _ _ _
    have h2 : str "Shadow" <:+:
        str " • Effects: " ++ join_sep (str ", ") (effects_list true refl glow round) :=
      isInf_app_right _ h1.isInfix
    exact isInf_app_left _ (isInf_app_left _ (isInf_app_left _ (isInf_app_right _ h2)))

/-! ### The codeshot tool call (src/main.py, lines 92-178) -/

/-- JSON-RPC error code `INVALID_PARAMS` from mcp.types. -/
def INVALID_PARAMS : Int := -32602

/-- JSON-RPC error code `INTERNAL_ERROR` from mcp.types. -/
def INTERNAL_ERROR : Int := -32603

/-- The outcome of the `codeshot` tool: either the complete
(summary text, base64 image) pair, or a structured error. -/
inductive McpOutcome where
  | ok : List Char → List Char → McpOutcome
  | err : Int → List Char → McpOutcome
  deriving DecidableEq, Repr

/-- main.py lines 117-178: the `codeshot` control flow. `fetch` models
`fetch_code_from_url`, which on failure raises an `McpError` (code,message) —
re-raised as-is by the `except McpError` clause; `generate` models
`CodeshotGenerator.generate`, whose exceptions are wrapped by the top-level
handler into an INTERNAL_ERROR. Python's `elif code:` is falsy for both
`None` and the empty string. -/
def codeshot (from_image : Bool) (code : Option (List Char))
    (code_url : Option (List Char))
    (fetch : List Char → Except (Int × List Char) (List Char))
    (generate : List Char → Except (List Char) (List Char × List Char)) :
    McpOutcome :=
  if from_image then
    .err INVALID_PARAMS (str "Image-based code generation is not currently supported. Please provide code text or a code URL instead.")
  else
    match code_url with
    | some u =>
      match fetch u with
      | .error (c, m) => .err c m
      | .ok content =>
        match generate content with
        | .ok (t, i) => .ok t i
        | .error e =>
          .err INTERNAL_ERROR (str "Failed to generate code screenshot: " ++ e)
    | none =>
      match code with
      | some c =>
        if c ≠ [] then
          match generate c with
          | .ok (t, i) => .ok t i
          | .error e =>
            .err INTERNAL_ERROR (str "Failed to generate code screenshot: " ++ e)
        else .err INVALID_PARAMS (str "Please provide either code text or a code URL.")
      | none => .err INVALID_PARAMS (str "Please provide either code text or a code URL.")

/-! ### Claim C7: missing code source -/

/-- C7: when neither code text nor a code URL is supplied, the call fails
with the invalid-request error before any rendering begins — the outcome is
the same for every fetch and generate function, so no rendering can have
contributed — and every call yields either a complete (summary, image) pair
or an error, never a partial result. -/
theorem c7_missing_code_source
    (fetch fetch' : List Char → Except (Int × List Char) (List Char))
    (generate generate' : List Char → Except (List Char) (List Char × List Char)) :
    codeshot false none none fetch generate =
      .err INVALID_PARAMS (str "Please provide either code text or a code URL.") ∧
    codeshot false none none fetch generate =
      codeshot false none none fetch' generate' ∧
    (∀ fi code url, (∃ t i, codeshot fi code url fetch generate = .ok t i) ∨
      (∃ ec em, codeshot fi code url fetch generate = .err ec em)) := by
  refine ⟨rfl, rfl, ?_⟩
  intro fi code url
  cases hres : codeshot fi code url fetch generate with
  | ok t i => exact Or.inl ⟨t, i, rfl⟩
  | err c m => exact Or.inr ⟨c, m, rfl⟩

/-! ### Language detection (src/src/core/renderer.py, lines 18-70) -/

def python_hints : List (List Char) :=
  [str "def ", str "import ", str "from ", str "class ", str "print(",
   str "__init__", str "elif ", str "try:", str "except:", str "finally:",
   str "lambda ", str "with ", str "yield"]

def js_hints : List (List Char) :=
  [str "function ", str "const ", str "let ", str "var ", str "console.log",
   str "=>", str "return ", str "typeof", str "null", str "undefined"]

def java_hints : List (List Char) :=
  [str "public class", str "private ", str "public ", str "static ",
   str "void main", str "system.out.println", str "string[]"]

def rust_hints : List (List Char) :=
  [str "fn ", str "let mut", str "match ", str "impl ", str "struct ",
   str "enum ", str "println!"]

/-- Python `sum(1 for hint in hints if hint in code_lower)`. -/
def hint_score (hints : List (List Char)) (code_lower : List Char) : Nat :=
  hints.countP (fun h => decide (h <:+: code_lower))

/-- Python `max(scores.keys(), key=lambda k: scores[k])`: iterates in dict
insertion order and keeps the first of the maxima (only a strictly greater
score replaces the current best). -/
def py_max_key : List Char → Nat → List (List Char × Nat) → List Char
  | k, _, [] => k
  | k, v, (k', v') :: rest =>
    if v' > v then py_max_key k' v' rest else py_max_key k v rest

/-- Python `code.strip()`. -/
def strip_ws (s : List Char) : List Char :=
  ((s.dropWhile Char.isWhitespace).reverse.dropWhile Char.isWhitespace).reverse

/-- renderer.py lines 60-66: remap a few known-noisy lexer names. -/
def name_mappings (python_score : Nat) (name : List Char) : List Char :=
  if name = str "tera term macro" then str "python"
  else if name = str "text" then str "python"
  else if name = str "common lisp" then
    (if python_score > 0 then str "python" else str "text")
  else name

/-- renderer.py lines 20-69: the heuristic body of `detect_language` that
runs when no (truthy) explicit language was supplied. `guess` models
pygments' `guess_lexer` applied to the stripped code, returning the
lowercased lexer name, or `none` when it raises — in which case the
enclosing `except` returns "python". -/
def detect_language_heuristic (guess : List Char → Option (List Char))
    (code : List Char) : List Char :=
  let code_lower := code.map Char.toLower
  let python_score := hint_score python_hints code_lower
  let js_score := hint_score js_hints code_lower
  let java_score := hint_score java_hints code_lower
  let rust_score := hint_score rust_hints code_lower
  let max_score := max (max python_score js_score) (max java_score rust_score)
  if max_score ≥ 2 then
    py_max_key (str "python") python_score
      [(str "javascript", js_score), (str "java", java_score),
       (str "rust", rust_score)]
  else
    match guess (strip_ws code) with
    | none => str "python"
    | some detected_name => name_mappings python_score detected_name

/-- renderer.py lines 18-70: `detect_language`. Python `if not language:`
treats both `None` and the empty string as absent. -/
def detect_language (guess : List Char → Option (List Char)) (code : List Char)
    (language : Option (List Char)) : List Char :=
  match language with
  | none => detect_language_heuristic guess code
  | some l => if l = [] then detect_language_heuristic guess code else l

/-! ### Claim C10: an empty explicit language is treated as absent -/

/-- C10: an explicit language equal to the empty string makes
`detect_language` fall through to the same heuristic path (keyword scoring
and lexer guessing) as when no language is supplied, rather than returning
the empty string unchanged; any non-empty explicit language is returned
unchanged. -/
theorem c10_empty_language_falls_through
    (guess : List Char → Option (List Char)) (code : List Char) :
    detect_language guess code (some []) = detect_language_heuristic guess code ∧
    detect_language guess code none = detect_language_heuristic guess code ∧
    detect_language guess code (some []) = detect_language guess code none ∧
    (∀ l, l ≠ [] → detect_language guess code (some l) = l) := by
  refine ⟨rfl, rfl, rfl, ?_⟩
  intro l hl
  simp [detect_language, hl]

theorem c10_empty_language_falls_through_witness :
    str "ruby" ≠ ([] : List Char) ∧
    detect_language (fun _ => none) (str "x = 1") (some (str "ruby")) = str "ruby" :=
  ⟨by decide,
   (c10_empty_language_falls_through (fun _ => none) (str "x = 1")).2.2.2
     (str "ruby") (by decide)⟩
